import Mathlib

/-!
Verification development for the BioCore dashboard client (src/script.js).

The JavaScript module is shallowly embedded: pure functions (validation,
payload building, the markdown renderer, filename derivation) become Lean
functions on `String`/`List Char`; the DOM- and network-effecting
orchestrator `runAnalysis` becomes a pure state transformer over an explicit
`UIState` carrying an event trace; the `setInterval`/`setTimeout` machinery
of the loading animation becomes a small discrete-time timer world.

JavaScript value conventions kept by the embedding:
  - `JSON.parse` results are modelled by the inductive `Json`; numbers keep
    their source literal text (`Json.num "1"`), which is faithful for every
    comparison made by the program (it never does arithmetic on body fields).
  - JS falsiness of the values the program tests is modelled by
    `Json.truthy` and by `= ""` tests on trimmed strings.
  - `parseInt(s, 10)` is modelled by `jsParseInt`, returning `JsInt.nan`
    when no leading digits exist, like the JS `NaN` result.
-/

-- ── JSON values ──────────────────────────────────────────────

/-- Result of `JSON.parse`: JSON values. Numbers keep their literal text. -/
inductive Json where
  | null
  | bool (b : Bool)
  | num (raw : String)
  | str (s : String)
  | arr (elems : List Json)
  | obj (fields : List (String × Json))

/-- JS truthiness of a parsed JSON value (`0`-valued numerals are falsy;
exponent digits do not make a zero mantissa truthy). -/
def Json.truthy : Json → Bool
  | .null => false
  | .bool b => b
  | .num raw => (raw.data.takeWhile (fun c => c ≠ 'e' ∧ c ≠ 'E')).any
      (fun c => '1' ≤ c ∧ c ≤ '9')
  | .str s => s ≠ ""
  | .arr _ => true
  | .obj _ => true

/-- Member lookup on an object; later duplicate keys win, as in `JSON.parse`.
Non-object, non-null receivers give `undefined`, modelled `none`. -/
def Json.getField : Json → String → Option Json
  | .obj kvs, k => kvs.foldl (fun acc kv => if kv.1 = k then some kv.2 else acc) none
  | _, _ => none

/-- Member access as evaluated by JS: reading a property of `null` throws a
TypeError (its message is abstracted below); any other receiver yields the
field or `undefined`. -/
def Json.getFieldE : Json → String → Except String (Option Json)
  | .null, k => .error ("Cannot read properties of null (reading " ++ k ++ ")")
  | j, k => .ok (j.getField k)

mutual
/-- JS `String(v)` coercion on parsed JSON values (arrays join with commas,
`null` elements joining as empty, objects print as `[object Object]`;
numbers keep their literal text). -/
def Json.toJsString : Json → String
  | .null => "null"
  | .bool true => "true"
  | .bool false => "false"
  | .num raw => raw
  | .str s => s
  | .obj _ => "[object Object]"
  | .arr xs => Json.arrJoin xs

/-- `Array.prototype.toString`: comma-joined elements, null as empty. -/
def Json.arrJoin : List Json → String
  | [] => ""
  | [Json.null] => ""
  | [x] => Json.toJsString x
  | Json.null :: xs => "," ++ Json.arrJoin xs
  | x :: xs => Json.toJsString x ++ "," ++ Json.arrJoin xs
end

/-- Two-space indentation for `JSON.stringify(_, null, 2)`. -/
def indentStr (d : Nat) : String := String.mk (List.replicate (2 * d) ' ')

/-- Escape a string for JSON output. -/
def jsonQuote (s : String) : String :=
  "\"" ++ String.mk (s.data.foldr (fun c acc =>
    if c = '"' then '\\' :: '"' :: acc
    else if c = '\\' then '\\' :: '\\' :: acc
    else if c = '\n' then '\\' :: 'n' :: acc
    else if c = '\r' then '\\' :: 'r' :: acc
    else if c = '\t' then '\\' :: 't' :: acc
    else c :: acc) []) ++ "\""

mutual
/-- `JSON.stringify(v, null, 2)` at nesting depth `d`. -/
def Json.stringifyAt : Nat → Json → String
  | _, .null => "null"
  | _, .bool true => "true"
  | _, .bool false => "false"
  | _, .num raw => raw
  | _, .str s => jsonQuote s
  | _, .arr [] => "[]"
  | d, .arr (x :: xs) => "[\n" ++ Json.stringifyItems (d + 1) (x :: xs) ++
      "\n" ++ indentStr d ++ "]"
  | _, .obj [] => "\x7b\x7d"
  | d, .obj (kv :: kvs) => "\x7b\n" ++ Json.stringifyMembers (d + 1) (kv :: kvs) ++
      "\n" ++ indentStr d ++ "\x7d"

def Json.stringifyItems : Nat → List Json → String
  | _, [] => ""
  | d, [x] => indentStr d ++ Json.stringifyAt d x
  | d, x :: xs => indentStr d ++ Json.stringifyAt d x ++ ",\n" ++
      Json.stringifyItems d xs

def Json.stringifyMembers : Nat → List (String × Json) → String
  | _, [] => ""
  | d, [kv] => indentStr d ++ jsonQuote kv.1 ++ ": " ++ Json.stringifyAt d kv.2
  | d, kv :: kvs => indentStr d ++ jsonQuote kv.1 ++ ": " ++ Json.stringifyAt d kv.2 ++
      ",\n" ++ Json.stringifyMembers d kvs
end

/-- `JSON.stringify(v, null, 2)`. -/
def Json.stringify (j : Json) : String := Json.stringifyAt 0 j

-- ── JSON.parse ───────────────────────────────────────────────

/-- JSON whitespace. -/
def isJsonWs (c : Char) : Bool := c = ' ' || c = '\t' || c = '\n' || c = '\r'

/-- Hex digit value. -/
def hexVal (c : Char) : Option Nat :=
  if c.isDigit then some (c.toNat - 48)
  else if 97 ≤ c.toNat ∧ c.toNat ≤ 102 then some (c.toNat - 87)
  else if 65 ≤ c.toNat ∧ c.toNat ≤ 70 then some (c.toNat - 55)
  else none

/-- Body of a JSON string literal after the opening quote; decodes escapes.
(Surrogate pairs are not recombined.) -/
def parseStrBody : Nat → List Char → List Char → Option (String × List Char)
  | 0, _, _ => none
  | _ + 1, _, [] => none
  | fuel + 1, acc, c :: rest =>
    if c = '"' then some (String.mk acc.reverse, rest)
    else if c = '\\' then
      match rest with
      | '"' :: r => parseStrBody fuel ('"' :: acc) r
      | '\\' :: r => parseStrBody fuel ('\\' :: acc) r
      | '/' :: r => parseStrBody fuel ('/' :: acc) r
      | 'b' :: r => parseStrBody fuel ('\x08' :: acc) r
      | 'f' :: r => parseStrBody fuel ('\x0c' :: acc) r
      | 'n' :: r => parseStrBody fuel ('\n' :: acc) r
      | 'r' :: r => parseStrBody fuel ('\r' :: acc) r
      | 't' :: r => parseStrBody fuel ('\t' :: acc) r
      | 'u' :: a :: b :: c2 :: d :: r =>
        match hexVal a, hexVal b, hexVal c2, hexVal d with
        | some va, some vb, some vc, some vd =>
          parseStrBody fuel (Char.ofNat (((va * 16 + vb) * 16 + vc) * 16 + vd) :: acc) r
        | _, _, _, _ => none
      | _ => none
    else if c.toNat < 32 then none
    else parseStrBody fuel (c :: acc) rest

/-- Integer part of a JSON number: `0` or a nonzero digit followed by digits. -/
def parseIntPart : List Char → Option (List Char × List Char)
  | [] => none
  | c :: r =>
    if c = '0' then some (['0'], r)
    else if c.isDigit then some (c :: r.takeWhile Char.isDigit, r.dropWhile Char.isDigit)
    else none

/-- Optional fraction part. -/
def parseFrac : List Char → Option (List Char × List Char)
  | '.' :: r =>
    let ds := r.takeWhile Char.isDigit
    if ds = [] then none else some ('.' :: ds, r.dropWhile Char.isDigit)
  | cs => some ([], cs)

/-- Optional exponent part. -/
def parseExp : List Char → Option (List Char × List Char)
  | [] => some ([], [])
  | c :: r =>
    if c = 'e' ∨ c = 'E' then
      let (sgn, r1) : List Char × List Char :=
        match r with
        | '+' :: t => (['+'], t)
        | '-' :: t => (['-'], t)
        | _ => ([], r)
      let ds := r1.takeWhile Char.isDigit
      if ds = [] then none else some (c :: (sgn ++ ds), r1.dropWhile Char.isDigit)
    else some ([], c :: r)

/-- A JSON number literal; returns the raw matched text. -/
def parseNumLit (cs : List Char) : Option (String × List Char) :=
  let (neg, cs1) : List Char × List Char :=
    match cs with
    | '-' :: t => (['-'], t)
    | _ => ([], cs)
  match parseIntPart cs1 with
  | none => none
  | some (ip, r1) =>
    match parseFrac r1 with
    | none => none
    | some (fp, r2) =>
      match parseExp r2 with
      | none => none
      | some (ep, r3) => some (String.mk (neg ++ ip ++ fp ++ ep), r3)

mutual
/-- One JSON value (with leading whitespace), fuel-bounded. -/
def parseValue : Nat → List Char → Option (Json × List Char)
  | 0, _ => none
  | fuel + 1, cs0 =>
    match cs0.dropWhile isJsonWs with
    | [] => none
    | c :: rest =>
      if c = '"' then
        match parseStrBody (rest.length + 1) [] rest with
        | some (s, r) => some (.str s, r)
        | none => none
      else if c = '\x7b' then
        match rest.dropWhile isJsonWs with
        | '\x7d' :: r => some (.obj [], r)
        | r => parseObjItems fuel r []
      else if c = '[' then
        match rest.dropWhile isJsonWs with
        | ']' :: r => some (.arr [], r)
        | r => parseArrItems fuel r []
      else if c = 't' then
        match rest with
        | 'r' :: 'u' :: 'e' :: r => some (.bool true, r)
        | _ => none
      else if c = 'f' then
        match rest with
        | 'a' :: 'l' :: 's' :: 'e' :: r => some (.bool false, r)
        | _ => none
      else if c = 'n' then
        match rest with
        | 'u' :: 'l' :: 'l' :: r => some (.null, r)
        | _ => none
      else
        match parseNumLit (c :: rest) with
        | some (lit, r) => some (.num lit, r)
        | none => none

/-- Array elements after `[`, fuel-bounded. -/
def parseArrItems : Nat → List Char → List Json → Option (Json × List Char)
  | 0, _, _ => none
  | fuel + 1, cs, acc =>
    match parseValue fuel cs with
    | none => none
    | some (v, r) =>
      match r.dropWhile isJsonWs with
      | ',' :: r2 => parseArrItems fuel r2 (acc ++ [v])
      | ']' :: r2 => some (.arr (acc ++ [v]), r2)
      | _ => none

/-- Object members after the opening brace, fuel-bounded. -/
def parseObjItems : Nat → List Char → List (String × Json) → Option (Json × List Char)
  | 0, _, _ => none
  | fuel + 1, cs, acc =>
    match cs.dropWhile isJsonWs with
    | '"' :: rest =>
      match parseStrBody (rest.length + 1) [] rest with
      | none => none
      | some (k, r1) =>
        match r1.dropWhile isJsonWs with
        | ':' :: r2 =>
          match parseValue fuel r2 with
          | none => none
          | some (v, r3) =>
            match r3.dropWhile isJsonWs with
            | ',' :: r4 => parseObjItems fuel r4 (acc ++ [(k, v)])
            | '\x7d' :: r4 => some (.obj (acc ++ [(k, v)]), r4)
            | _ => none
        | _ => none
    | _ => none
end

/-- `JSON.parse`: `none` models a thrown SyntaxError. -/
def jsParseJson (s : String) : Option Json :=
  match parseValue (2 * s.data.length + 2) s.data with
  | some (v, rest) => if rest.dropWhile isJsonWs = [] then some v else none
  | none => none

-- ── JS string and number helpers ─────────────────────────────

/-- Whitespace removed by `String.prototype.trim`. -/
def isJsSpace (c : Char) : Bool :=
  c = ' ' || c = '\t' || c = '\n' || c = '\r' || c = '\x0b' || c = '\x0c' || c = '\xa0'

/-- `String.prototype.trim()`. -/
def jsTrim (s : String) : String :=
  String.mk (((s.data.dropWhile isJsSpace).reverse.dropWhile isJsSpace).reverse)

/-- `toUpperCase()` restricted to ASCII (all inputs of interest are ASCII). -/
def asciiUpper (s : String) : String := String.mk (s.data.map Char.toUpper)

/-- `toLowerCase()` restricted to ASCII. -/
def asciiLower (s : String) : String := String.mk (s.data.map Char.toLower)

/-- Result of `parseInt(s, 10)`: an integer or `NaN`. -/
inductive JsInt where
  | int (i : Int)
  | nan
deriving DecidableEq

/-- `parseInt(s, 10)`: optional sign, then the longest digit prefix; no
digits gives `NaN`. -/
def jsParseInt (s : String) : JsInt :=
  let cs := s.data.dropWhile isJsSpace
  let (sign, cs1) : Int × List Char :=
    match cs with
    | '-' :: t => (-1, t)
    | '+' :: t => (1, t)
    | _ => (1, cs)
  let digits := cs1.takeWhile Char.isDigit
  if digits = [] then .nan
  else .int (sign * (digits.foldl (fun a c => a * 10 + (c.toNat - 48)) (0 : Nat) : Nat))

-- ── Form state, validation, payload ──────────────────────────

/-- The values of the input fields (FieldValidator and PayloadBuilder read
them through `dom.*.value`). -/
structure FormState where
  projectName : String
  projectDesc : String
  compoundName : String
  cid : String
  pdbId : String
  dockingJson : String
  swissdockJson : String
  pymolJson : String
  webhookUrl : String

/-- Error list for one optional auxiliary JSON field of `validate`. -/
def jsonFieldError (val : String) (label : String) : List String :=
  if val ≠ "" ∧ (jsParseJson val).isNone then [label ++ " data is not valid JSON."] else []

/-- `validate()` from script.js lines 66-90: all violations collected in
push order. -/
def validate (fs : FormState) : List String :=
  let compoundName := jsTrim fs.compoundName
  let cid := jsTrim fs.cid
  let pdbId := jsTrim fs.pdbId
  let webhookUrl := jsTrim fs.webhookUrl
  let projectName := jsTrim fs.projectName
  (if projectName = "" then ["Analysis Name is required."] else []) ++
  (if compoundName = "" ∧ cid = "" then ["Provide a Compound Name or PubChem CID."] else []) ++
  (if pdbId = "" ∨ pdbId.length ≠ 4 then ["PDB Accession must be exactly 4 characters (e.g. 1EQG)."] else []) ++
  (if webhookUrl = "" then ["n8n Webhook URL is required."] else []) ++
  jsonFieldError (jsTrim fs.dockingJson) ("docking") ++
  jsonFieldError (jsTrim fs.swissdockJson) ("swissdock") ++
  jsonFieldError (jsTrim fs.pymolJson) ("pymol")

/-- The request object produced by `buildPayload()`. An `Option` field is
`none` exactly when the key is absent from the JS object as serialized
(`analysis_description: ... || undefined` is dropped by `JSON.stringify`). -/
structure RequestPayload where
  analysis_name : String
  analysis_description : Option String
  pdb_id : String
  compound_name : Option String
  cid : Option JsInt
  docking_results : Option Json
  swissdock_results : Option Json
  pymol_data : Option Json

/-- One optional auxiliary JSON blob of `buildPayload`: absent when blank,
otherwise `JSON.parse`d; a parse failure is the thrown SyntaxError
(message abstracted to name the field). -/
def optJson (raw : String) (label : String) : Except String (Option Json) :=
  if raw = "" then .ok none
  else
    match jsParseJson raw with
    | some j => .ok (some j)
    | none => .error ("SyntaxError in JSON field " ++ label)

/-- `buildPayload()` from script.js lines 93-113. The `Except` propagates
the exception `JSON.parse` would throw on an invalid auxiliary blob
(unreachable after a clean `validate`). -/
def buildPayload (fs : FormState) : Except String RequestPayload :=
  let desc := jsTrim fs.projectDesc
  let compoundName := jsTrim fs.compoundName
  let cid := jsTrim fs.cid
  match optJson (jsTrim fs.dockingJson) ("docking_results") with
  | .error e => .error e
  | .ok dock =>
    match optJson (jsTrim fs.swissdockJson) ("swissdock_results") with
    | .error e => .error e
    | .ok swiss =>
      match optJson (jsTrim fs.pymolJson) ("pymol_data") with
      | .error e => .error e
      | .ok pymol =>
        .ok
          { analysis_name := jsTrim fs.projectName
            analysis_description := if desc = "" then none else some desc
            pdb_id := asciiUpper (jsTrim fs.pdbId)
            compound_name := if compoundName = "" then none else some compoundName
            cid := if cid = "" then none else some (jsParseInt cid)
            docking_results := dock
            swissdock_results := swiss
            pymol_data := pymol }

-- ── UI state machine and the orchestrator ────────────────────

/-- The four mutually exclusive output panels of `showOnly`. -/
inductive Display where
  | empty
  | loading
  | result
  | error
deriving DecidableEq

/-- The spec-level run state, derived from the visible panel. -/
inductive RunState where
  | idle
  | running
  | succeeded
  | failed (msg : String)
deriving DecidableEq

/-- Observable primitive effects of the module, recorded as a trace. -/
inductive Act where
  | alert (msg : String)
  | btnSet (disabled : Bool)
  | outputShow (visible : Bool)
  | showPanel (d : Display)
  | status (label state : String)
  | animStart
  | animStop
  | fetch (url : String) (payload : RequestPayload)
  | render (data : Json) (payload : RequestPayload)
  | consoleError
  | clipboard (text : String)
  | download (filename text : String)
  | crash (msg : String)

/-- Mutable page state touched by the module, plus the effect trace. -/
structure UIState where
  btnDisabled : Bool
  display : Display
  statusLabel : String
  statusState : String
  outputShown : Bool
  errorMsg : String
  lastReport : Json
  narratorOn : Bool
  events : List Act

/-- Append one effect to the trace. -/
def UIState.withEvent (ui : UIState) (a : Act) : UIState :=
  { ui with events := ui.events ++ [a] }

/-- `dom.btnRun.disabled = b`. -/
def setBtn (b : Bool) (ui : UIState) : UIState :=
  { ui with btnDisabled := b, events := ui.events ++ [Act.btnSet b] }

/-- `dom.outputActions.style.display = ...`. -/
def setOutput (b : Bool) (ui : UIState) : UIState :=
  { ui with outputShown := b, events := ui.events ++ [Act.outputShow b] }

/-- `showOnly(id)`. -/
def showOnly (d : Display) (ui : UIState) : UIState :=
  { ui with display := d, events := ui.events ++ [Act.showPanel d] }

/-- `setStatus(label, state)`. -/
def setStatus (label state : String) (ui : UIState) : UIState :=
  { ui with statusLabel := label, statusState := state,
            events := ui.events ++ [Act.status label state] }

/-- `startLoadingAnimation()` as seen by the orchestrator. -/
def startAnim (ui : UIState) : UIState :=
  { ui with narratorOn := true, events := ui.events ++ [Act.animStart] }

/-- `stopLoadingAnimation()` as seen by the orchestrator. -/
def stopAnim (ui : UIState) : UIState :=
  { ui with narratorOn := false, events := ui.events ++ [Act.animStop] }

/-- The run state shown to the user, per panel. -/
def UIState.runState (ui : UIState) : RunState :=
  match ui.display with
  | .empty => .idle
  | .loading => .running
  | .result => .succeeded
  | .error => .failed ui.errorMsg

/-- Outcome of the `fetch` call as the orchestrator observes it: a transport
rejection with the rejection message, or a response with its `ok` flag,
numeric status, and the outcome of `res.json()` (`.error` carries the parse
SyntaxError message). -/
inductive FetchOutcome where
  | fail (msg : String)
  | resp (ok : Bool) (status : Nat) (body : Except String Json)

/-- The value of `data.message || data.error || ('HTTP ' + res.status)` as
JS evaluates it inside `throw new Error(...)`, including the TypeError a
`null` body raises on the first member access. -/
def errExprMsg (data : Json) (status : Nat) : String :=
  match data.getFieldE ("message") with
  | .error t => t
  | .ok mo =>
    match mo with
    | some m =>
      if m.truthy then m.toJsString
      else
        match data.getFieldE ("error") with
        | .error t => t
        | .ok (some e) => if e.truthy then e.toJsString else "HTTP " ++ toString status
        | .ok none => "HTTP " ++ toString status
    | none =>
      match data.getFieldE ("error") with
      | .error t => t
      | .ok (some e) => if e.truthy then e.toJsString else "HTTP " ++ toString status
      | .ok none => "HTTP " ++ toString status

/-- `if (!res.ok || data.status === 'error') throw ...` of script.js line
226-228: `some m` when the run fails with thrown message `m` (including a
TypeError from accessing a property of a `null` body), `none` on success. -/
def failureMsg (ok : Bool) (status : Nat) (data : Json) : Option String :=
  match ok with
  | false => some (errExprMsg data status)
  | true =>
    match data.getFieldE ("status") with
    | .error t => some t
    | .ok (some (.str s)) => if s = "error" then some (errExprMsg data status) else none
    | .ok _ => none

/-- The `catch (err)` block of `runAnalysis` (script.js lines 237-242);
`msg` is `err.message`. -/
def catchBlock (msg : String) (ui : UIState) : UIState :=
  let ui := stopAnim ui
  let m := if msg = "" then "Unknown error. Check the console for details." else msg
  let ui := { ui with errorMsg := m }
  let ui := showOnly .error ui
  let ui := setStatus ("Error") ("error") ui
  ui.withEvent Act.consoleError

/-- Whether `renderResult(data, payload)` throws, and the thrown message:
for a truthy `data.report` it calls `renderMarkdown(data.report)`, whose
first statement is `text.replace(...)` — a TypeError whenever that value
is not a string. (A falsy or absent report takes the
`JSON.stringify` fallback branch instead; the meta-bar template and
`escHtml` coerce every value and never throw.) -/
def renderResultThrow (ro : Option Json) : Option String :=
  match ro with
  | some v =>
    if v.truthy then
      match v with
      | .str _ => none
      | _ => some ("text.replace is not a function")
    else none
  | none => none

/-- The success tail of the `try` block (script.js lines 230-235). The
cache write `lastReport = data.report || JSON.stringify(data, null, 2)`
(line 231) happens FIRST; `renderResult` (line 232) then throws for a
truthy non-string report, diverting to the catch with the cache already
overwritten. On that throw path the partial meta-bar DOM writes made
before the throw are not tracked; `Act.render` records a completed
`renderResult` call. -/
def successBlock (data : Json) (payload : RequestPayload) (ui : UIState) : UIState :=
  match data.getFieldE ("report") with
  | .error t => catchBlock t ui
  | .ok ro =>
    let lastR : Json :=
      match ro with
      | some v => if v.truthy then v else .str (Json.stringify data)
      | none => .str (Json.stringify data)
    let ui := { ui with lastReport := lastR }
    match renderResultThrow ro with
    | some t => catchBlock t ui
    | none =>
      let ui := ui.withEvent (Act.render data payload)
      let ui := showOnly .result ui
      let ui := setOutput true ui
      setStatus ("Complete") ("") ui

/-- `runAnalysis()` from script.js lines 198-246, as a pure transformer of
the page state given the observed fetch outcome. A `buildPayload` exception
(impossible after a clean validate) escapes the function before the UI is
locked, recorded as `Act.crash`. -/
def runAnalysis (fs : FormState) (outcome : FetchOutcome) (ui : UIState) : UIState :=
  let errors := validate fs
  if errors.isEmpty then
    match buildPayload fs with
    | .error e => ui.withEvent (Act.crash e)
    | .ok payload =>
      let url := jsTrim fs.webhookUrl
      let ui := setBtn true ui
      let ui := setOutput false ui
      let ui := showOnly .loading ui
      let ui := setStatus ("Running…") ("loading") ui
      let ui := startAnim ui
      let ui := ui.withEvent (Act.fetch url payload)
      let ui2 :=
        match outcome with
        | .fail msg => catchBlock msg ui
        | .resp _ _ (.error pmsg) => catchBlock pmsg ui
        | .resp ok status (.ok data) =>
          let ui := stopAnim ui
          match failureMsg ok status data with
          | some m => catchBlock m ui
          | none => successBlock data payload ui
      setBtn false ui2
  else
    ui.withEvent (Act.alert ("Please fix the following:\n\n• " ++
      String.intercalate ("\n• ") errors))

-- ── Result actions and form clearing ─────────────────────────

/-- `copyReport()` (script.js lines 294-306): no-op when no report is
cached; the transient button animation is not modelled. -/
def copyReport (ui : UIState) : UIState :=
  if ui.lastReport.truthy then ui.withEvent (Act.clipboard ui.lastReport.toJsString)
  else ui

/-- The file name derived by `downloadReport()`: non-alphanumerics replaced
by underscores, lower-cased, blank falling back to the fixed default. -/
def downloadName (projectName : String) : String :=
  let s := asciiLower (String.mk ((jsTrim projectName).data.map
    (fun c => if c.isAlphanum then c else '_')))
  if s = "" then "biocore_report" else s

/-- `downloadReport()` (script.js lines 309-319). -/
def downloadReport (fs : FormState) (ui : UIState) : UIState :=
  if ui.lastReport.truthy then
    ui.withEvent (Act.download (downloadName fs.projectName ++ ".md")
      ui.lastReport.toJsString)
  else ui

/-- `clearForm()` (script.js lines 322-335); the webhook URL field is not
cleared. -/
def clearForm (fs : FormState) (ui : UIState) : FormState × UIState :=
  let fs2 := { fs with projectName := "", projectDesc := "", compoundName := "",
                       cid := "", pdbId := "", dockingJson := "",
                       swissdockJson := "", pymolJson := "" }
  let ui := showOnly .empty ui
  let ui := setOutput false ui
  let ui := setStatus ("Ready") ("") ui
  (fs2, { ui with lastReport := .str ("") })

-- ── Markdown renderer (script.js lines 162-195) ──────────────

/-- Replace every occurrence of a single character by a string, as one
global `String.prototype.replace` pass (replacements are not rescanned). -/
def replaceChar (target : Char) (rep : String) (cs : List Char) : List Char :=
  cs.foldr (fun c acc => if c = target then rep.data ++ acc else c :: acc) []

/-- The HTML-escape pass: `&`, then `<`, then `>`. -/
def escapeHtml (cs : List Char) : List Char :=
  replaceChar '>' ("&gt;") (replaceChar '<' ("&lt;") (replaceChar '&' ("&amp;") cs))

/-- JS `trimEnd()` on a character list. -/
def jsTrimEndChars (cs : List Char) : List Char :=
  (cs.reverse.dropWhile isJsSpace).reverse

/-- Split at the first occurrence of three consecutive backticks:
`(before, after)` with the ticks consumed. -/
def findTriple : List Char → Option (List Char × List Char)
  | [] => none
  | c :: cs =>
    match c :: cs with
    | a :: b :: d :: r =>
      if a = '\x60' ∧ b = '\x60' ∧ d = '\x60' then some ([], r)
      else
        match findTriple cs with
        | some (pre, post) => some (c :: pre, post)
        | none => none
    | _ =>
      match findTriple cs with
      | some (pre, post) => some (c :: pre, post)
      | none => none

/-- Is `\w` for the regex character class `[\w]`. -/
def isWordChar (c : Char) : Bool := c.isAlphanum || c = '_'

/-- The fenced-code-block pass:
`/` ``` `[\w]*\n?([\s\S]*?)` ``` `/g` with the match replaced by
`<pre><code>` + trimmed-end content + `</code></pre>`. On a failed match
attempt the scan advances one character, like the regex engine. -/
def codeBlockPass : Nat → List Char → List Char
  | 0, cs => cs
  | _ + 1, [] => []
  | fuel + 1, c :: cs =>
    match c :: cs with
    | a :: b :: d :: r =>
      if a = '\x60' ∧ b = '\x60' ∧ d = '\x60' then
        let r1 := r.dropWhile isWordChar
        let r2 := match r1 with
          | '\n' :: t => t
          | _ => r1
        match findTriple r2 with
        | some (content, post) =>
          ("<pre><code>").data ++ jsTrimEndChars content ++ ("</code></pre>").data ++
            codeBlockPass fuel post
        | none => c :: codeBlockPass fuel cs
      else c :: codeBlockPass fuel cs
    | _ => c :: codeBlockPass fuel cs

/-- The inline-code pass: ``/`([^`]+)`/g`` replaced by `<code>$1</code>`. -/
def inlineCodePass : Nat → List Char → List Char
  | 0, cs => cs
  | _ + 1, [] => []
  | fuel + 1, c :: cs =>
    if c = '\x60' then
      let run := cs.takeWhile (fun x => x ≠ '\x60')
      match run, cs.dropWhile (fun x => x ≠ '\x60') with
      | _ :: _, _ :: post =>
        ("<code>").data ++ run ++ ("</code>").data ++ inlineCodePass fuel post
      | _, _ => c :: inlineCodePass fuel cs
    else c :: inlineCodePass fuel cs

/-- Apply a line transformation to every line, as a `/^...$/gm` regex pass
does (`.` cannot cross a newline). -/
def mapLines (f : String → String) (s : String) : String :=
  String.intercalate ("\n") (((s.data.splitOn '\n').map String.mk).map f)

/-- One header pass: a line starting `## ` (for example) with a nonempty
rest becomes a heading element. -/
def headerLine (marker : String) (tag : String) (line : String) : String :=
  if marker.data.isPrefixOf line.data ∧ line.length > marker.length then
    "<" ++ tag ++ ">" ++ String.mk (line.data.drop marker.data.length) ++ "</" ++ tag ++ ">"
  else line

/-- Scan for the lazy close of `/\*\*(.+?)\*\*/`: the first `**` after at
least one captured character, with no newline inside the capture. -/
def boldClose : List Char → List Char → Option (List Char × List Char)
  | acc, a :: b :: r =>
    if a = '*' ∧ b = '*' then some (acc.reverse, r)
    else if a = '\n' then none
    else boldClose (a :: acc) (b :: r)
  | _, _ => none

/-- The bold pass: `/\*\*(.+?)\*\*/g` replaced by `<strong>$1</strong>`. -/
def boldPass : Nat → List Char → List Char
  | 0, cs => cs
  | _ + 1, [] => []
  | fuel + 1, c :: cs =>
    match c :: cs with
    | a :: b :: r =>
      if a = '*' ∧ b = '*' then
        match r with
        | x :: r2 =>
          if x = '\n' then c :: boldPass fuel cs
          else
            match boldClose [x] r2 with
            | some (cap, post) =>
              ("<strong>").data ++ cap ++ ("</strong>").data ++ boldPass fuel post
            | none => c :: boldPass fuel cs
        | [] => c :: boldPass fuel cs
      else c :: boldPass fuel cs
    | _ => c :: boldPass fuel cs

/-- Scan for the lazy close of `/\*(.+?)\*/`. -/
def italicClose : List Char → List Char → Option (List Char × List Char)
  | acc, a :: r =>
    if a = '*' then some (acc.reverse, r)
    else if a = '\n' then none
    else italicClose (a :: acc) r
  | _, [] => none

/-- The italic pass: `/\*(.+?)\*/g` replaced by `<em>$1</em>`. -/
def italicPass : Nat → List Char → List Char
  | 0, cs => cs
  | _ + 1, [] => []
  | fuel + 1, c :: cs =>
    if c = '*' then
      match cs with
      | x :: r2 =>
        if x = '\n' then c :: italicPass fuel cs
        else
          match italicClose [x] r2 with
          | some (cap, post) =>
            ("<em>").data ++ cap ++ ("</em>").data ++ italicPass fuel post
          | none => c :: italicPass fuel cs
      | [] => c :: italicPass fuel cs
    else c :: italicPass fuel cs

/-- The horizontal-rule pass: `/^---$/gm`. -/
def hrLine (line : String) : String :=
  if line = "---" then "<hr style=\"border-color:var(--border);margin:16px 0\">" else line

/-- String-level wrappers of the character-list passes, fueled by length. -/
def escapePassS (s : String) : String := String.mk (escapeHtml s.data)

def codeBlockPassS (s : String) : String :=
  String.mk (codeBlockPass (s.data.length + 1) s.data)

def inlineCodePassS (s : String) : String :=
  String.mk (inlineCodePass (s.data.length + 1) s.data)

def h3PassS (s : String) : String := mapLines (headerLine ("### ") ("h3")) s

def h2PassS (s : String) : String := mapLines (headerLine ("## ") ("h2")) s

def h1PassS (s : String) : String := mapLines (headerLine ("# ") ("h1")) s

def boldPassS (s : String) : String := String.mk (boldPass (s.data.length + 1) s.data)

def italicPassS (s : String) : String :=
  String.mk (italicPass (s.data.length + 1) s.data)

def hrPassS (s : String) : String := mapLines hrLine s

/-- `renderMarkdown(text)` (script.js lines 162-195): the HTML string
assigned to the wrapper `div` (the structured document). -/
def renderMarkdown (text : String) : String :=
  hrPassS (italicPassS (boldPassS (h1PassS (h2PassS (h3PassS
    (inlineCodePassS (codeBlockPassS (escapePassS text))))))))

-- ── Loading animation timers (script.js lines 128-159) ───────

/-- Cumulative delays of `loadingMessages`. -/
def loadingDelays : List Nat := [0, 2500, 5000, 12000]

/-- The closure state of `startLoadingAnimation`: the `current` counter and
the `className` of each stage element `ls1..ls4`. -/
structure Narr where
  current : Nat
  classes : List String
deriving DecidableEq

/-- The `advance` closure: marks the previous stage done and the current
stage active, then increments `current`. -/
def advance (n : Narr) : Narr :=
  let cs := if n.current > 0 then n.classes.set (n.current - 1) ("lstep done") else n.classes
  if n.current < loadingDelays.length then
    { current := n.current + 1, classes := cs.set n.current ("lstep active") }
  else { n with classes := cs }

/-- The browser timer state: current time, the pending `setInterval` (next
fire time; the period is 2500 ms), and the fire times of pending
`setTimeout(advance, ...)` calls. -/
structure TimerWorld where
  time : Nat
  narr : Narr
  intervalNext : Option Nat
  timeouts : List Nat
deriving DecidableEq

/-- `startLoadingAnimation()`: classes reset, one immediate `advance()`,
and the interval armed 2500 ms out. -/
def startLoadingAnimation : TimerWorld :=
  { time := 0
    narr := advance { current := 0, classes := ["lstep", "lstep", "lstep", "lstep"] }
    intervalNext := some 2500
    timeouts := [] }

/-- The `setInterval` callback fired at time `t`: if a next stage exists it
schedules `setTimeout(advance, next.delay - prevDelay)`; the interval
re-arms itself. -/
def intervalTick (w : TimerWorld) (t : Nat) : TimerWorld :=
  let w := { w with time := t, intervalNext := some (t + 2500) }
  match loadingDelays.get? w.narr.current with
  | some d =>
    let prev := if w.narr.current > 0 then (loadingDelays.get? (w.narr.current - 1)).getD 0 else 0
    { w with timeouts := w.timeouts ++ [t + (d - prev)] }
  | none => w

/-- Earliest pending timeout and the rest. -/
def minTimeout : List Nat → Option (Nat × List Nat)
  | [] => none
  | t :: ts =>
    match minTimeout ts with
    | none => some (t, ts)
    | some (m, rest) => if t ≤ m then some (t, ts) else some (m, t :: rest)

/-- Run the earliest due timer at or before `deadline`, if any (pending
timeouts win ties against the interval; no tie occurs in the runs below). -/
def stepWorld (deadline : Nat) (w : TimerWorld) : Option TimerWorld :=
  match w.intervalNext, minTimeout w.timeouts with
  | some ti, some (tm, rest) =>
    if tm ≤ ti then
      if tm ≤ deadline then
        some { w with time := tm, timeouts := rest, narr := advance w.narr }
      else none
    else
      if ti ≤ deadline then some (intervalTick w ti) else none
  | some ti, none => if ti ≤ deadline then some (intervalTick w ti) else none
  | none, some (tm, rest) =>
    if tm ≤ deadline then
      some { w with time := tm, timeouts := rest, narr := advance w.narr }
    else none
  | none, none => none

/-- Run every due timer up to `deadline`, fuel-bounded. -/
def runTimersTo : Nat → Nat → TimerWorld → TimerWorld
  | 0, _, w => w
  | fuel + 1, deadline, w =>
    match stepWorld deadline w with
    | some w2 => runTimersTo fuel deadline w2
    | none => w

/-- `stopLoadingAnimation()`: `clearInterval(loadingTimer)` cancels only
the interval; already-scheduled `setTimeout(advance, ...)` calls stay
pending. -/
def stopLoadingAnimation (w : TimerWorld) : TimerWorld :=
  { w with intervalNext := none }

-- ── Fixtures and claim-support definitions ───────────────────

/-- Number of network calls recorded in a trace. -/
def countFetches (es : List Act) : Nat :=
  (es.filter (fun a => match a with | Act.fetch _ _ => true | _ => false)).length

/-- Whether a fetch outcome makes the run take the failure path, mirroring
the code: transport rejection, `res.json()` rejection, or the thrown
`Error`/TypeError decided by `failureMsg`. -/
def failingOutcome : FetchOutcome → Bool
  | .fail _ => true
  | .resp _ _ (.error _) => true
  | .resp ok status (.ok data) => (failureMsg ok status data).isSome

/-- A form state that validates cleanly, using the compound name. -/
def fsValid : FormState :=
  { projectName := "Aspirin study", projectDesc := "", compoundName := "aspirin",
    cid := "", pdbId := "1EQG", dockingJson := "", swissdockJson := "",
    pymolJson := "", webhookUrl := "https://example.test/webhook" }

/-- A validating form state carrying BOTH a compound name and a CID. -/
def fsBoth : FormState := { fsValid with cid := "123" }

/-- A validating form state whose CID field is not numeric. -/
def fsBadCid : FormState := { fsValid with compoundName := "", cid := "abc" }

/-- The empty form: fails validation. -/
def fsEmpty : FormState :=
  { projectName := "", projectDesc := "", compoundName := "", cid := "",
    pdbId := "", dockingJson := "", swissdockJson := "", pymolJson := "",
    webhookUrl := "" }

/-- The docking example of the spec, braces written as escapes. -/
def dockingLit : String := "\x7b\"poses\":[\x7b\"rank\":1\x7d]\x7d"

/-- The parsed structured value of `dockingLit`. -/
def dockingVal : Json := Json.obj [(("poses"), Json.arr [Json.obj [(("rank"), Json.num ("1"))]])]

/-- A validating form state with the docking example filled in. -/
def fsDock : FormState := { fsValid with dockingJson := dockingLit }

/-- Page state before any run. -/
def initUI : UIState :=
  { btnDisabled := false, display := Display.empty, statusLabel := "Ready",
    statusState := "", outputShown := false, errorMsg := "",
    lastReport := Json.str (""), narratorOn := false, events := [] }

/-- Page state in which an earlier run already cached a report. -/
def uiWithReport : UIState := { initUI with lastReport := Json.str ("old") }

/-- The error body of the spec example: `status error, message bad pdb`. -/
def data0 : Json := Json.obj [(("status"), Json.str ("error")), (("message"), Json.str ("bad pdb"))]

/-- A success body carrying a report. -/
def reportBody : Json := Json.obj [(("report"), Json.str ("# T"))]

/-- A body whose `report` field is a truthy NON-string (the empty object):
it passes the line-226 failure check, reaches the cache write, and then
makes `renderMarkdown` throw. -/
def reportObjBody : Json := Json.obj [(("report"), Json.obj [])]

/-- The payload `buildPayload` computes for `fsBoth`. -/
def fsBothPayload : RequestPayload :=
  { analysis_name := "Aspirin study", analysis_description := none,
    pdb_id := "1EQG", compound_name := some ("aspirin"),
    cid := some (JsInt.int 123), docking_results := none,
    swissdock_results := none, pymol_data := none }

/-- Does the body field `k` hold exactly the string `v`
(JS `data.k === v` on a non-null body)? -/
def Json.isStrField (j : Json) (k v : String) : Bool :=
  match j.getField k with
  | some (.str s) => s = v
  | _ => false

/-- Transcription of the claimed failure-message rule (claim C4), following
the claim text: the message comes from the body message field if truthy,
else the body error field if truthy, else the generic HTTP-status text. -/
def specFailedMessage (data : Json) (status : Nat) : String :=
  match data.getField ("message") with
  | some m =>
    if m.truthy then m.toJsString
    else
      match data.getField ("error") with
      | some e => if e.truthy then e.toJsString else "HTTP " ++ toString status
      | none => "HTTP " ++ toString status
  | none =>
    match data.getField ("error") with
    | some e => if e.truthy then e.toJsString else "HTTP " ++ toString status
    | none => "HTTP " ++ toString status

/-- Transcription of claim C4's description of where a Failed message may
come from, as a predicate over the observed response (if any body was
parsed, and the numeric status if a response arrived). -/
def claimC4Allowed (body : Option Json) (status : Option Nat) (msg : String) : Prop :=
  (∃ j v, body = some j ∧ j.getField ("message") = some v ∧ v.truthy ∧ v.toJsString = msg) ∨
  (∃ j v, body = some j ∧ j.getField ("error") = some v ∧ v.truthy ∧ v.toJsString = msg) ∨
  (∃ n, status = some n ∧ msg = "HTTP " ++ toString n)

-- ── Helper lemmas ────────────────────────────────────────────

theorem guard_mem {p : Prop} [Decidable p] {m a : String} :
    a ∈ (if p then [m] else []) ↔ p ∧ a = m := by
  by_cases hp : p <;> simp [hp]

theorem guard_eq_nil {p : Prop} [Decidable p] {m : String} :
    (if p then [m] else []) = [] ↔ ¬ p := by
  by_cases hp : p <;> simp [hp]

theorem optJson_ok_of_fieldError {raw lbl : String} (lbl2 : String)
    (h : jsonFieldError raw lbl = []) : ∃ o, optJson raw lbl2 = Except.ok o := by
  unfold jsonFieldError at h
  unfold optJson
  by_cases he : raw = ""
  · exact ⟨none, by rw [if_pos he]⟩
  · rcases ho : jsParseJson raw with _ | j
    · rw [if_pos ⟨he, by simp [ho]⟩] at h
      simp at h
    · exact ⟨some j, by rw [if_neg he]⟩

theorem buildPayload_ok_of_validate (fs : FormState) (h : validate fs = []) :
    ∃ p, buildPayload fs = Except.ok p := by
  unfold validate at h
  simp only [List.append_eq_nil] at h
  obtain ⟨⟨⟨⟨⟨⟨-, -⟩, -⟩, -⟩, hd⟩, hs⟩, hp⟩ := h
  obtain ⟨o1, e1⟩ := optJson_ok_of_fieldError ("docking_results") hd
  obtain ⟨o2, e2⟩ := optJson_ok_of_fieldError ("swissdock_results") hs
  obtain ⟨o3, e3⟩ := optJson_ok_of_fieldError ("pymol_data") hp
  rcases hb : buildPayload fs with e | p
  · exfalso
    unfold buildPayload at hb
    rw [e1, e2, e3] at hb
    simp at hb
  · exact ⟨p, rfl⟩

theorem getFieldE_ok {j : Json} (h : j ≠ Json.null) (k : String) :
    j.getFieldE k = Except.ok (j.getField k) := by
  cases j
  case null => exact absurd rfl h
  all_goals rfl

theorem errExprMsg_eq_spec {data : Json} (status : Nat) (h : data ≠ Json.null) :
    errExprMsg data status = specFailedMessage data status := by
  unfold errExprMsg specFailedMessage
  rw [getFieldE_ok h ("message"), getFieldE_ok h ("error")]
  rcases data.getField ("message") with _ | m
  · rcases data.getField ("error") with _ | e <;> rfl
  · rcases data.getField ("error") with _ | e <;> rfl

theorem failureMsg_of_cond {ok : Bool} {status : Nat} {data : Json}
    (hn : data ≠ Json.null)
    (hc : (!ok || data.isStrField ("status") ("error")) = true) :
    failureMsg ok status data = some (errExprMsg data status) := by
  cases ok
  · rfl
  · have hc2 : data.isStrField ("status") ("error") = true := by simpa using hc
    unfold Json.isStrField at hc2
    unfold failureMsg
    rw [getFieldE_ok hn]
    rcases hg : data.getField ("status") with _ | v
    · rw [hg] at hc2
      simp at hc2
    · rw [hg] at hc2
      cases v <;> simp at hc2
      case str s => simp [hc2]

-- ── Claim theorems ───────────────────────────────────────────

/-- C1 (counterexample): on a validated form state whose compound-name and
CID fields are both non-blank after trimming, the built payload carries BOTH
the compound-name key and the numeric-id key, contradicting the claimed
"exactly one of the two keys, never both". -/
theorem buildPayload_both_keys_cex :
    jsTrim fsBoth.compoundName ≠ "" ∧ jsTrim fsBoth.cid ≠ "" ∧ validate fsBoth = [] ∧
    (buildPayload fsBoth).map (fun p => (p.compound_name, p.cid)) =
      Except.ok ((some ("aspirin"), some (JsInt.int 123))) :=
  ⟨by decide, by decide, rfl, rfl⟩

/-- C1 (amended): the payload carries the compound-name key exactly when the
name field is non-blank after trimming and the numeric-id key exactly when
the CID field is non-blank after trimming — so when both fields are
non-blank, both keys are present. -/
theorem buildPayload_compound_keys (fs : FormState) (p : RequestPayload)
    (h : buildPayload fs = Except.ok p) :
    p.compound_name =
      (if jsTrim fs.compoundName = "" then none else some (jsTrim fs.compoundName)) ∧
    p.cid = (if jsTrim fs.cid = "" then none else some (jsParseInt (jsTrim fs.cid))) := by
  unfold buildPayload at h
  rcases e1 : optJson (jsTrim fs.dockingJson) ("docking_results") with e | o1 <;> rw [e1] at h
  · simp at h
  rcases e2 : optJson (jsTrim fs.swissdockJson) ("swissdock_results") with e | o2 <;> rw [e2] at h
  · simp at h
  rcases e3 : optJson (jsTrim fs.pymolJson) ("pymol_data") with e | o3 <;> rw [e3] at h
  · simp at h
  simp only [Except.ok.injEq] at h
  subst h
  exact ⟨rfl, rfl⟩

/-- C1 (witness): the amended claim evaluated on the concrete both-fields
form state. -/
theorem buildPayload_compound_keys_witness :
    buildPayload fsBoth = Except.ok fsBothPayload ∧
    fsBothPayload.compound_name = some ("aspirin") ∧
    fsBothPayload.cid = some (JsInt.int 123) := by
  have hb : buildPayload fsBoth = Except.ok fsBothPayload := by rfl
  have h := buildPayload_compound_keys fsBoth fsBothPayload hb
  exact ⟨hb, h.1.trans (by decide), h.2.trans (by decide)⟩

/-- C2: `stopLoadingAnimation` only clears the interval, so a
`setTimeout(advance, ...)` scheduled by an interval tick BEFORE the stop
still fires afterwards and advances a stage. Concretely: start the
animation, run to t = 2600 ms (the tick at 2500 schedules an advance for
t = 5000), stop, run on — at t = 5000 the dangling timer still marks stage
1 done and stage 2 active. -/
theorem stop_leaves_dangling_advance :
    (stopLoadingAnimation (runTimersTo 8 2600 startLoadingAnimation)).narr.current = 1 ∧
    (stopLoadingAnimation (runTimersTo 8 2600 startLoadingAnimation)).timeouts = [5000] ∧
    (stopLoadingAnimation (runTimersTo 8 2600 startLoadingAnimation)).intervalNext = none ∧
    (runTimersTo 8 12000 (stopLoadingAnimation
      (runTimersTo 8 2600 startLoadingAnimation))).narr.current = 2 ∧
    (runTimersTo 8 12000 (stopLoadingAnimation
      (runTimersTo 8 2600 startLoadingAnimation))).narr.classes =
      ["lstep done", "lstep active", "lstep", "lstep"] := by
  refine ⟨rfl, rfl, rfl, rfl, rfl⟩

/-- C5: on a form whose CID field is `abc` (non-blank, not numeric-only)
the validator reports NO error, and `buildPayload` silently produces
`cid = NaN` instead of failing fast — the claim's required rejection does
not happen. -/
theorem nonnumeric_cid_silently_accepted :
    validate fsBadCid = [] ∧
    (buildPayload fsBadCid).map (fun p => p.cid) = Except.ok (some JsInt.nan) :=
  ⟨rfl, rfl⟩

/-- C6 (counterexample): the bold pass (a later pass) re-matches inside the
output the inline-code pass produced: rendering a backticked bold marker
yields strong markup INSIDE the code element, not the literal text. -/
theorem bold_rematches_inside_inline_code :
    renderMarkdown ("`**x**`") = "<code><strong>x</strong></code>" ∧
    renderMarkdown ("`**x**`") ≠ "<code>**x**</code>" := by
  refine ⟨rfl, ?_⟩
  decide

/-- C6 (amended): the passes run in the fixed listed order (escape, fenced
blocks, inline code, h3/h2/h1 headers, bold, italic, rule), each on the
previous output, and an input that is exactly a backticked word renders to
an inline code element whose text is exactly that word; but later passes
CAN re-match inside earlier-produced output. -/
theorem render_fixed_order_inline_code :
    (∀ t, renderMarkdown t =
      hrPassS (italicPassS (boldPassS (h1PassS (h2PassS (h3PassS
        (inlineCodePassS (codeBlockPassS (escapePassS t))))))))) ∧
    renderMarkdown ("`code`") = "<code>code</code>" :=
  ⟨fun _ => rfl, rfl⟩

/-- C8: the compound error is reported exactly when BOTH the compound-name
field and the CID field are blank after trimming; in particular a form
supplying both (the literal `fsBoth`) gets no compound error. -/
theorem compound_error_inclusive_or :
    (∀ fs : FormState, ("Provide a Compound Name or PubChem CID.") ∈ validate fs ↔
      (jsTrim fs.compoundName = "" ∧ jsTrim fs.cid = "")) ∧
    ("Provide a Compound Name or PubChem CID.") ∉ validate fsBoth := by
  constructor
  · intro fs
    unfold validate jsonFieldError
    simp only [List.mem_append, guard_mem]
    simp
  · decide

/-- C3: when validation fails, `runAnalysis` only raises one alert carrying
all the errors; it makes no fetch, does not touch the submit control, does
not start the narrator, and leaves the run state unchanged. -/
theorem validate_errors_block_run (fs : FormState) (o : FetchOutcome) (ui : UIState)
    (h : validate fs ≠ []) :
    (runAnalysis fs o ui).events = ui.events ++
      [Act.alert ("Please fix the following:\n\n• " ++
        String.intercalate ("\n• ") (validate fs))] ∧
    (runAnalysis fs o ui).btnDisabled = ui.btnDisabled ∧
    (runAnalysis fs o ui).narratorOn = ui.narratorOn ∧
    (runAnalysis fs o ui).runState = ui.runState ∧
    countFetches (runAnalysis fs o ui).events = countFetches ui.events := by
  have hb : (validate fs).isEmpty = false := by
    cases hv : validate fs with
    | nil => exact absurd hv h
    | cons a l => rfl
  unfold runAnalysis
  simp [hb, UIState.withEvent, UIState.runState, countFetches, List.filter_append]

/-- C3 (witness): the empty form fails validation and the theorem applies
to it with a concrete outcome and page state. -/
theorem validate_errors_block_run_witness :
    validate fsEmpty ≠ [] ∧
    ((runAnalysis fsEmpty (FetchOutcome.fail ("x")) initUI).events = initUI.events ++
      [Act.alert ("Please fix the following:\n\n• " ++
        String.intercalate ("\n• ") (validate fsEmpty))] ∧
     (runAnalysis fsEmpty (FetchOutcome.fail ("x")) initUI).btnDisabled = initUI.btnDisabled ∧
     (runAnalysis fsEmpty (FetchOutcome.fail ("x")) initUI).narratorOn = initUI.narratorOn ∧
     (runAnalysis fsEmpty (FetchOutcome.fail ("x")) initUI).runState = initUI.runState ∧
     countFetches (runAnalysis fsEmpty (FetchOutcome.fail ("x")) initUI).events =
       countFetches initUI.events) :=
  ⟨by decide, validate_errors_block_run fsEmpty (FetchOutcome.fail ("x")) initUI (by decide)⟩

/-- C7: on every invocation that passes validation, the submit control is
disabled before the fetch is issued, no further submit-control change or
fetch occurs until the end, and the final trace event re-enables the
control on every exit path (transport failure, body-parse failure, error
status/body, success), leaving the button enabled. -/
theorem run_locks_submit_until_settled (fs : FormState) (o : FetchOutcome) (ui : UIState)
    (h : validate fs = []) :
    ∃ p tail,
      buildPayload fs = Except.ok p ∧
      (runAnalysis fs o ui).events = ui.events ++
        ([Act.btnSet true, Act.outputShow false, Act.showPanel Display.loading,
          Act.status ("Running…") ("loading"), Act.animStart,
          Act.fetch (jsTrim fs.webhookUrl) p] ++ tail ++ [Act.btnSet false]) ∧
      (∀ b, Act.btnSet b ∉ tail) ∧
      (∀ u q, Act.fetch u q ∉ tail) ∧
      (runAnalysis fs o ui).btnDisabled = false := by
  obtain ⟨p, hp⟩ := buildPayload_ok_of_validate fs h
  have hb : (validate fs).isEmpty = true := by rw [h]; rfl
  cases o with
  | fail msg =>
    refine ⟨p, [Act.animStop, Act.showPanel Display.error,
      Act.status ("Error") ("error"), Act.consoleError], hp, ?_, ?_, ?_, ?_⟩
    · unfold runAnalysis
      simp [hb, hp, catchBlock, stopAnim, showOnly, setStatus, setBtn, setOutput,
        startAnim, UIState.withEvent]
    · intro b
      simp
    · intro u q
      simp
    · unfold runAnalysis
      simp [hb, hp, catchBlock, stopAnim, showOnly, setStatus, setBtn, setOutput,
        startAnim, UIState.withEvent]
  | resp ok status body =>
    cases body with
    | error pmsg =>
      refine ⟨p, [Act.animStop, Act.showPanel Display.error,
        Act.status ("Error") ("error"), Act.consoleError], hp, ?_, ?_, ?_, ?_⟩
      · unfold runAnalysis
        simp [hb, hp, catchBlock, stopAnim, showOnly, setStatus, setBtn, setOutput,
          startAnim, UIState.withEvent]
      · intro b
        simp
      · intro u q
        simp
      · unfold runAnalysis
        simp [hb, hp, catchBlock, stopAnim, showOnly, setStatus, setBtn, setOutput,
          startAnim, UIState.withEvent]
    | ok data =>
      cases hf : failureMsg ok status data with
      | some m =>
        refine ⟨p, [Act.animStop, Act.animStop, Act.showPanel Display.error,
          Act.status ("Error") ("error"), Act.consoleError], hp, ?_, ?_, ?_, ?_⟩
        · unfold runAnalysis
          simp [hb, hp, hf, catchBlock, stopAnim, showOnly, setStatus, setBtn, setOutput,
            startAnim, UIState.withEvent]
        · intro b
          simp
        · intro u q
          simp
        · unfold runAnalysis
          simp [hb, hp, hf, catchBlock, stopAnim, showOnly, setStatus, setBtn, setOutput,
            startAnim, UIState.withEvent]
      | none =>
        cases hr : data.getFieldE ("report") with
        | error t =>
          refine ⟨p, [Act.animStop, Act.animStop, Act.showPanel Display.error,
            Act.status ("Error") ("error"), Act.consoleError], hp, ?_, ?_, ?_, ?_⟩
          · unfold runAnalysis
            simp [hb, hp, hf, hr, successBlock, catchBlock, stopAnim, showOnly, setStatus,
              setBtn, setOutput, startAnim, UIState.withEvent]
          · intro b
            simp
          · intro u q
            simp
          · unfold runAnalysis
            simp [hb, hp, hf, hr, successBlock, catchBlock, stopAnim, showOnly, setStatus,
              setBtn, setOutput, startAnim, UIState.withEvent]
        | ok ro =>
          cases hrt : renderResultThrow ro with
          | some t2 =>
            refine ⟨p, [Act.animStop, Act.animStop, Act.showPanel Display.error,
              Act.status ("Error") ("error"), Act.consoleError], hp, ?_, ?_, ?_, ?_⟩
            · unfold runAnalysis
              simp [hb, hp, hf, hr, hrt, successBlock, catchBlock, stopAnim, showOnly,
                setStatus, setBtn, setOutput, startAnim, UIState.withEvent]
            · intro b
              simp
            · intro u q
              simp
            · unfold runAnalysis
              simp [hb, hp, hf, hr, hrt, successBlock, catchBlock, stopAnim, showOnly,
                setStatus, setBtn, setOutput, startAnim, UIState.withEvent]
          | none =>
            refine ⟨p, [Act.animStop, Act.render data p, Act.showPanel Display.result,
              Act.outputShow true, Act.status ("Complete") ("")], hp, ?_, ?_, ?_, ?_⟩
            · unfold runAnalysis
              simp [hb, hp, hf, hr, hrt, successBlock, catchBlock, stopAnim, showOnly,
                setStatus, setBtn, setOutput, startAnim, UIState.withEvent]
            · intro b
              simp
            · intro u q
              simp
            · unfold runAnalysis
              simp [hb, hp, hf, hr, hrt, successBlock, catchBlock, stopAnim, showOnly,
                setStatus, setBtn, setOutput, startAnim, UIState.withEvent]

/-- C7 (witness): the theorem applied to a concrete validated form, a
concrete success outcome, and the initial page state. -/
theorem run_locks_submit_until_settled_witness :
    validate fsValid = [] ∧
    (∃ p tail,
      buildPayload fsValid = Except.ok p ∧
      (runAnalysis fsValid (FetchOutcome.resp true 200 (Except.ok reportBody))
          initUI).events = initUI.events ++
        ([Act.btnSet true, Act.outputShow false, Act.showPanel Display.loading,
          Act.status ("Running…") ("loading"), Act.animStart,
          Act.fetch (jsTrim fsValid.webhookUrl) p] ++ tail ++ [Act.btnSet false]) ∧
      (∀ b, Act.btnSet b ∉ tail) ∧
      (∀ u q, Act.fetch u q ∉ tail) ∧
      (runAnalysis fsValid (FetchOutcome.resp true 200 (Except.ok reportBody))
          initUI).btnDisabled = false) :=
  ⟨by decide, run_locks_submit_until_settled fsValid
    (FetchOutcome.resp true 200 (Except.ok reportBody)) initUI (by decide)⟩

/-- C4 (counterexample): on a transport failure the Failed message is the
transport rejection's own message, which is none of the claim's three
sources (there is no body and no HTTP status at all). -/
theorem transport_failure_message_cex :
    (runAnalysis fsValid (FetchOutcome.fail ("network down")) initUI).runState =
      RunState.failed ("network down") ∧
    ¬ claimC4Allowed none none ("network down") := by
  constructor
  · rfl
  · intro hc
    rcases hc with ⟨j, v, hj, -⟩ | ⟨j, v, hj, -⟩ | ⟨n, hn, -⟩
    · exact Option.noConfusion hj
    · exact Option.noConfusion hj
    · exact Option.noConfusion hn

/-- C4 (amended): when a response arrives, its body parses to a non-null
JSON value, and the run fails (non-success status or an explicit error
status in the body), the Failed message follows the claimed priority:
body message field if truthy, else body error field if truthy, else the
generic HTTP-status text (with the catch block's fallback if that value is
the empty string). Transport and body-parse failures instead surface their
own error message. -/
theorem failure_message_priority (fs : FormState) (ok : Bool) (status : Nat)
    (data : Json) (ui : UIState)
    (h1 : validate fs = []) (h2 : data ≠ Json.null)
    (h3 : (!ok || data.isStrField ("status") ("error")) = true) :
    (runAnalysis fs (FetchOutcome.resp ok status (Except.ok data)) ui).runState =
      RunState.failed (if specFailedMessage data status = ""
        then "Unknown error. Check the console for details."
        else specFailedMessage data status) := by
  obtain ⟨p, hp⟩ := buildPayload_ok_of_validate fs h1
  have hb : (validate fs).isEmpty = true := by rw [h1]; rfl
  have hf : failureMsg ok status data = some (errExprMsg data status) :=
    failureMsg_of_cond h2 h3
  have he : errExprMsg data status = specFailedMessage data status :=
    errExprMsg_eq_spec status h2
  unfold runAnalysis
  simp [hb, hp, hf, he, catchBlock, stopAnim, showOnly, setStatus, setBtn,
    setOutput, startAnim, UIState.withEvent, UIState.runState]

/-- C4 (witness): the literal spec example — a body `status error,
message bad pdb` — ends in `Failed("bad pdb")`. -/
theorem failure_message_priority_witness :
    validate fsValid = [] ∧
    (runAnalysis fsValid (FetchOutcome.resp true 200 (Except.ok data0)) initUI).runState =
      RunState.failed ("bad pdb") := by
  refine ⟨by decide, ?_⟩
  have h := failure_message_priority fsValid true 200 data0 initUI (by decide)
    (fun hc => Json.noConfusion hc) (by rfl)
  exact h.trans (by decide)

theorem optJson_ok_cases {raw label : String} {o : Option Json}
    (h : optJson raw label = Except.ok o) :
    (raw = "" → o = none) ∧ (raw ≠ "" → o = jsParseJson raw) := by
  unfold optJson at h
  by_cases he : raw = ""
  · rw [if_pos he] at h
    simp only [Except.ok.injEq] at h
    exact ⟨fun _ => h.symm, fun hne => absurd he hne⟩
  · rw [if_neg he] at h
    rcases ho : jsParseJson raw with _ | j <;> rw [ho] at h
    · simp at h
    · simp only [Except.ok.injEq] at h
      exact ⟨fun hh => absurd hh he, fun _ => h.symm⟩

/-- C9: for a validated form state, `buildPayload` succeeds and every
optional key is absent (never null) when its source field is blank after
trimming; each non-blank auxiliary JSON blob appears as its parsed
structured value; and with the docking example filled in, the payload
holds the parsed object, not the raw string. -/
theorem build_omits_blank_optionals (fs : FormState) (h : validate fs = []) :
    ∃ p, buildPayload fs = Except.ok p ∧
      (jsTrim fs.projectDesc = "" → p.analysis_description = none) ∧
      (jsTrim fs.compoundName = "" → p.compound_name = none) ∧
      (jsTrim fs.cid = "" → p.cid = none) ∧
      (jsTrim fs.dockingJson = "" → p.docking_results = none) ∧
      (jsTrim fs.swissdockJson = "" → p.swissdock_results = none) ∧
      (jsTrim fs.pymolJson = "" → p.pymol_data = none) ∧
      (jsTrim fs.dockingJson ≠ "" →
        p.docking_results = jsParseJson (jsTrim fs.dockingJson)) ∧
      (jsTrim fs.dockingJson = dockingLit → p.docking_results = some dockingVal) := by
  obtain ⟨p, hp⟩ := buildPayload_ok_of_validate fs h
  refine ⟨p, hp, ?_⟩
  unfold buildPayload at hp
  rcases e1 : optJson (jsTrim fs.dockingJson) ("docking_results") with e | o1 <;>
    rw [e1] at hp
  · simp at hp
  rcases e2 : optJson (jsTrim fs.swissdockJson) ("swissdock_results") with e | o2 <;>
    rw [e2] at hp
  · simp at hp
  rcases e3 : optJson (jsTrim fs.pymolJson) ("pymol_data") with e | o3 <;>
    rw [e3] at hp
  · simp at hp
  simp only [Except.ok.injEq] at hp
  subst hp
  obtain ⟨hd1, hd2⟩ := optJson_ok_cases e1
  obtain ⟨hs1, -⟩ := optJson_ok_cases e2
  obtain ⟨hp1, -⟩ := optJson_ok_cases e3
  refine ⟨fun hx => by simp [hx], fun hx => by simp [hx], fun hx => by simp [hx],
    fun hx => by simp [hd1 hx], fun hx => by simp [hs1 hx], fun hx => by simp [hp1 hx],
    fun hx => by simp [hd2 hx], ?_⟩
  intro hx
  have h7 : o1 = jsParseJson (jsTrim fs.dockingJson) := hd2 (by rw [hx]; decide)
  rw [hx] at h7
  show o1 = some dockingVal
  rw [h7]
  rfl

/-- C9 (witness): the theorem applied to the concrete validated form state
carrying the docking example. -/
theorem build_omits_blank_optionals_witness :
    validate fsDock = [] ∧
    (∃ p, buildPayload fsDock = Except.ok p ∧
      (jsTrim fsDock.projectDesc = "" → p.analysis_description = none) ∧
      (jsTrim fsDock.compoundName = "" → p.compound_name = none) ∧
      (jsTrim fsDock.cid = "" → p.cid = none) ∧
      (jsTrim fsDock.dockingJson = "" → p.docking_results = none) ∧
      (jsTrim fsDock.swissdockJson = "" → p.swissdock_results = none) ∧
      (jsTrim fsDock.pymolJson = "" → p.pymol_data = none) ∧
      (jsTrim fsDock.dockingJson ≠ "" →
        p.docking_results = jsParseJson (jsTrim fsDock.dockingJson)) ∧
      (jsTrim fsDock.dockingJson = dockingLit → p.docking_results = some dockingVal)) :=
  ⟨by decide, build_omits_blank_optionals fsDock (by decide)⟩

/-- C10 (amended): the cached last report is preserved by every run that
fails at the transport, body-parse, or HTTP/body-status level — that is,
before the success branch's cache write at line 231 — and by runs blocked
in validation; `copy`/`download` are no-ops while no report is cached and
otherwise operate on exactly the cached text; the form-clear action resets
the cache. (A run that reaches line 231 with a truthy non-string report
overwrites the cache and only then fails in `renderResult`: see the
counterexample.) -/
theorem failed_run_preserves_last_report :
    (∀ (fs : FormState) (o : FetchOutcome) (ui : UIState), failingOutcome o = true →
      (runAnalysis fs o ui).lastReport = ui.lastReport) ∧
    (∀ (fs : FormState) (o : FetchOutcome) (ui : UIState), validate fs ≠ [] →
      (runAnalysis fs o ui).lastReport = ui.lastReport) ∧
    (∀ ui : UIState, ui.lastReport.truthy = false → copyReport ui = ui) ∧
    (∀ (fs : FormState) (ui : UIState), ui.lastReport.truthy = false →
      downloadReport fs ui = ui) ∧
    (∀ ui : UIState, ui.lastReport.truthy = true →
      (copyReport ui).events = ui.events ++ [Act.clipboard ui.lastReport.toJsString]) ∧
    (∀ (fs : FormState) (ui : UIState), ui.lastReport.truthy = true →
      (downloadReport fs ui).events = ui.events ++
        [Act.download (downloadName fs.projectName ++ ".md") ui.lastReport.toJsString]) ∧
    (∀ (fs : FormState) (ui : UIState), (clearForm fs ui).2.lastReport = Json.str ("")) := by
  refine ⟨?_, ?_, ?_, ?_, ?_, ?_, ?_⟩
  · intro fs o ui hf
    unfold runAnalysis
    by_cases hv : (validate fs).isEmpty = true
    · rcases hb : buildPayload fs with e | p
      · simp [hv, hb, UIState.withEvent]
      · cases o with
        | fail msg =>
          simp [hv, hb, catchBlock, stopAnim, showOnly, setStatus, setBtn,
            setOutput, startAnim, UIState.withEvent]
        | resp ok status body =>
          cases body with
          | error pm =>
            simp [hv, hb, catchBlock, stopAnim, showOnly, setStatus, setBtn,
              setOutput, startAnim, UIState.withEvent]
          | ok data =>
            rcases hm : failureMsg ok status data with _ | m
            · exfalso
              simp [failingOutcome, hm] at hf
            · simp [hv, hb, hm, catchBlock, stopAnim, showOnly, setStatus, setBtn,
                setOutput, startAnim, UIState.withEvent]
    · have hv2 : (validate fs).isEmpty = false := by simpa using hv
      simp [hv2, UIState.withEvent]
  · intro fs o ui hne
    have hv2 : (validate fs).isEmpty = false := by
      cases hx : validate fs with
      | nil => exact absurd hx hne
      | cons a l => rfl
    unfold runAnalysis
    simp [hv2, UIState.withEvent]
  · intro ui hx
    simp [copyReport, hx]
  · intro fs ui hx
    simp [downloadReport, hx]
  · intro ui hx
    simp [copyReport, hx, UIState.withEvent]
  · intro fs ui hx
    simp [downloadReport, hx, UIState.withEvent]
  · intro fs ui
    simp [clearForm, showOnly, setOutput, setStatus]

/-- C10 (witness): the parts of the theorem evaluated on concrete states —
a transport failure preserves a previously cached report, the actions
are no-ops on the fresh page, and copy reads exactly the cached text. -/
theorem failed_run_preserves_last_report_witness :
    failingOutcome (FetchOutcome.fail ("x")) = true ∧
    (runAnalysis fsValid (FetchOutcome.fail ("x")) uiWithReport).lastReport =
      uiWithReport.lastReport ∧
    initUI.lastReport.truthy = false ∧
    copyReport initUI = initUI ∧
    downloadReport fsValid initUI = initUI ∧
    uiWithReport.lastReport.truthy = true ∧
    (copyReport uiWithReport).events = uiWithReport.events ++
      [Act.clipboard uiWithReport.lastReport.toJsString] :=
  ⟨rfl,
   failed_run_preserves_last_report.1 fsValid (FetchOutcome.fail ("x")) uiWithReport rfl,
   rfl,
   failed_run_preserves_last_report.2.2.1 initUI rfl,
   failed_run_preserves_last_report.2.2.2.1 fsValid initUI rfl,
   rfl,
   failed_run_preserves_last_report.2.2.2.2.1 uiWithReport rfl⟩

/-- C10 (counterexample): a response body whose `report` field is a truthy
non-string (here `report: {}`) passes the line-226 failure check, so the
cache write at line 231 runs and replaces the previously cached report
with the junk value; `renderResult` then throws (`text.replace` on a
non-string) and the run ends Failed — a failed run whose cached
last-report text did NOT stay unchanged. -/
theorem failed_run_overwrites_cache_cex :
    uiWithReport.lastReport = Json.str ("old") ∧
    (runAnalysis fsValid (FetchOutcome.resp true 200 (Except.ok reportObjBody))
        uiWithReport).runState =
      RunState.failed ("text.replace is not a function") ∧
    (runAnalysis fsValid (FetchOutcome.resp true 200 (Except.ok reportObjBody))
        uiWithReport).lastReport = Json.obj [] ∧
    (runAnalysis fsValid (FetchOutcome.resp true 200 (Except.ok reportObjBody))
        uiWithReport).lastReport ≠ uiWithReport.lastReport := by
  refine ⟨rfl, rfl, rfl, ?_⟩
  intro h
  exact Json.noConfusion (show Json.obj [] = Json.str ("old") from h)
